import Mathlib

/-!
# Verification of the Raven weather-location resolution core

Shallow embedding of the location-resolution logic of the repository
(the `LOCATION_KEYWORDS` table, `extract_location_from_message`, and the
`WeatherConfig` class with `get_location` and `_extract_from_message`).

Messages are modelled as `List Char`; the Python `re` patterns used by
`_extract_from_message` are modelled by executable search functions that
reproduce Python's leftmost-match and greedy-capture semantics for the
four concrete patterns appearing in the source.
-/

set_option autoImplicit false

namespace Raven

/-- The `LOCATION_KEYWORDS` table from the source: an insertion-ordered map
from Chinese display names to canonical English location ids. -/
def LOCATION_KEYWORDS : List (List Char × String) :=
  [("北京".toList, "Beijing"),
   ("上海".toList, "Shanghai"),
   ("杭州".toList, "Hangzhou"),
   ("深圳".toList, "Shenzhen"),
   ("成都".toList, "Chengdu"),
   ("广州".toList, "Guangzhou"),
   ("普洱".toList, "Puer"),
   ("香港".toList, "Hong Kong"),
   ("东京".toList, "Tokyo")]

/-- `CITY_MAP`, the city map referenced by `_extract_from_message`.
The source's implementation steps identify it with the Chinese-to-English
city table `LOCATION_KEYWORDS`. -/
def CITY_MAP : List (List Char × String) := LOCATION_KEYWORDS

/-- `startsWith needle hay`: `needle` is a prefix of `hay`. -/
def startsWith : List Char → List Char → Bool
  | [], _ => true
  | _ :: _, [] => false
  | a :: as, b :: bs => a == b && startsWith as bs

/-- `isSubstr needle hay`: `needle` occurs as a contiguous substring of
`hay` — the model of Python's `needle in hay` for strings. -/
def isSubstr (needle : List Char) : List Char → Bool
  | [] => startsWith needle []
  | c :: rest => startsWith needle (c :: rest) || isSubstr needle rest

/-- The keyword loop of `extract_location_from_message`: walk the table in
insertion order and return the English name of the first Chinese key that
occurs in the message. -/
def keywordScan : List (List Char × String) → List Char → Option String
  | [], _ => none
  | e :: rest, message =>
    if isSubstr e.1 message then some e.2 else keywordScan rest message

/-- The source's `extract_location_from_message`: iterate over
`LOCATION_KEYWORDS` in insertion order and return the English name of the
first Chinese key occurring in the message, or `none`. -/
def extract_location_from_message (message : List Char) : Option String :=
  keywordScan LOCATION_KEYWORDS message

/-- One step of the longest-match fold: keep the better of the current
best entry and `e`, preferring strictly longer display names and keeping
the earlier-registered entry on ties. -/
def longestStep (text : List Char) (best : Option (List Char × String))
    (e : List Char × String) : Option (List Char × String) :=
  if isSubstr e.1 text then
    match best with
    | none => some e
    | some b => if b.1.length < e.1.length then some e else some b
  else best

/-- Modelled from the spec: `LocationDictionary.findLongestMatch(text)`
returns the registered entry whose display name is the longest substring
of `text` among all registered names occurring in `text`, ties broken by
earliest registration order, and `none` when no registered name occurs. -/
def findLongestMatch (entries : List (List Char × String)) (text : List Char) :
    Option (List Char × String) :=
  entries.foldl (longestStep text) none

/-- Model of Python regex `\w` restricted to the character classes that
occur in this repository: ASCII alphanumerics, underscore, and CJK
unified ideographs (U+4E00..U+9FFF).  CJK punctuation (U+3000 block,
full-width forms) and whitespace are not word characters. -/
def isWordChar (c : Char) : Bool :=
  c.isAlphanum || c == '_' || (0x4E00 ≤ c.toNat && c.toNat ≤ 0x9FFF)

/-- Maximal prefix of word characters — the greedy `\w+`/`\w*` run. -/
def wordRun : List Char → List Char
  | [] => []
  | c :: rest => if isWordChar c then c :: wordRun rest else []

/-- Model of `re.search(cue + r'(\w+)[市区县]?', message).group(1)` for a
single-character cue (在/去/到): the capture at the leftmost occurrence of
`cue` followed by at least one word character is the maximal greedy run
of word characters after the cue (the optional `[市区县]?` always matches
empty there, since the greedy `\w+` has already consumed any such word
character). -/
def searchCue (cue : Char) : List Char → Option (List Char)
  | [] => none
  | c :: rest =>
    if c == cue then
      match wordRun rest with
      | [] => searchCue cue rest
      | w :: ws => some (w :: ws)
    else searchCue cue rest

/-- The eight ways the tail `[市区县]?的?天气` of the fourth pattern can
continue after the capture. -/
def dPatternTails : List (List Char) :=
  [['市', '的', '天', '气'], ['区', '的', '天', '气'], ['县', '的', '天', '气'],
   ['市', '天', '气'], ['区', '天', '气'], ['县', '天', '气'],
   ['的', '天', '气'], ['天', '气']]

/-- Does `[市区县]?的?天气` match at the start of `t`? -/
def tailMatchD (t : List Char) : Bool :=
  dPatternTails.any (fun p => startsWith p t)

/-- Backtracking for the greedy `(\w+)` of pattern `(\w+)[市区县]?的?天气`
at a fixed start position: try capture lengths from `k` down to 1 and
return the longest capture whose tail matches, mirroring Python's
greedy-then-backtrack order. -/
def bestCapture (s : List Char) : Nat → Option (List Char)
  | 0 => none
  | k + 1 =>
    if tailMatchD (s.drop (k + 1)) then some (s.take (k + 1)) else bestCapture s k

/-- Model of `re.search(r'(\w+)[市区县]?的?天气', message).group(1)`:
scan start positions left to right; at each position the capture is the
longest nonempty word-character prefix whose continuation matches
`[市区县]?的?天气`. -/
def searchD : List Char → Option (List Char)
  | [] => none
  | c :: rest =>
    match bestCapture (c :: rest) (wordRun (c :: rest)).length with
    | some cap => some cap
    | none => searchD rest

/-- `CITY_MAP.get(key)`: the value stored under `key`, or `none`. -/
def cityMapGet (key : List Char) : Option String :=
  (CITY_MAP.find? (fun e => e.1 == key)).map Prod.snd

/-- The source's `WeatherConfig._extract_from_message`: try the four
patterns 在X, 去X, 到X, X的天气 in order; at the first pattern that
matches anywhere in the message, return `CITY_MAP.get` of its capture
(possibly `none`) without trying the remaining patterns. -/
def _extract_from_message (message : List Char) : Option String :=
  match searchCue '在' message with
  | some cap => cityMapGet cap
  | none =>
    match searchCue '去' message with
    | some cap => cityMapGet cap
    | none =>
      match searchCue '到' message with
      | some cap => cityMapGet cap
      | none =>
        match searchD message with
        | some cap => cityMapGet cap
        | none => none

/-- The capture of the first of the four patterns that matches anywhere
in the message, in the fixed order 在X, 去X, 到X, X的天气. -/
def firstPatternCapture (message : List Char) : Option (List Char) :=
  match searchCue '在' message with
  | some cap => some cap
  | none =>
    match searchCue '去' message with
    | some cap => some cap
    | none =>
      match searchCue '到' message with
      | some cap => some cap
      | none => searchD message

/-- Which of the three priority tiers supplied the resolved location. -/
inductive SourceTier where
  | FromMessage
  | FromUserConfig
  | FromSystemDefault
  deriving DecidableEq, Repr

/-- The resolved location together with its provenance tier. -/
structure ResolutionResult where
  canonical : String
  sourceTier : SourceTier
  deriving DecidableEq, Repr

/-- Tier 1 of `get_location`: `if message:` (Python truthiness — absent or
empty means skip), then `_extract_from_message`, then `if location:`
(a `None` or empty extraction result falls through). -/
def messageTier (message : Option (List Char)) : Option String :=
  match message with
  | none => none
  | some m =>
    if m.isEmpty then none
    else
      match _extract_from_message m with
      | none => none
      | some loc => if loc.isEmpty then none else some loc

/-- Tier 2 of `get_location`:
`if user_config.get('weather_location'):` — a missing or empty stored
value falls through. -/
def configTier (configLookup : Nat → Option String) (userId : Nat) : Option String :=
  match configLookup userId with
  | none => none
  | some loc => if loc.isEmpty then none else some loc

/-- `WeatherConfig.get_location` instrumented with the provenance tier:
the three-tier cascade of the source, reporting which return statement
produced the result.  `systemDefault` is the class constant
`DEFAULT_LOCATION` of the source, kept as a parameter. -/
def resolve (message : Option (List Char)) (userId : Nat)
    (configLookup : Nat → Option String) (systemDefault : String) : ResolutionResult :=
  match messageTier message with
  | some loc => ⟨loc, SourceTier.FromMessage⟩
  | none =>
    match configTier configLookup userId with
    | some loc => ⟨loc, SourceTier.FromUserConfig⟩
    | none => ⟨systemDefault, SourceTier.FromSystemDefault⟩

/-- `WeatherConfig.DEFAULT_LOCATION`. -/
def DEFAULT_LOCATION : String := "Shanghai"

/-- The source's `WeatherConfig.get_location` itself: the same cascade,
returning only the location string, with the system default fixed to
`DEFAULT_LOCATION`.  The user-config store is an external collaborator,
passed as a lookup function. -/
def get_location (getUserConfig : Nat → Option String) (user_id : Nat)
    (message : Option (List Char)) : String :=
  match messageTier message with
  | some loc => loc
  | none =>
    match configTier getUserConfig user_id with
    | some loc => loc
    | none => DEFAULT_LOCATION

/-! ## Shared lemmas -/

theorem get_location_eq_resolve_canonical (cfg : Nat → Option String) (u : Nat)
    (m : Option (List Char)) :
    get_location cfg u m = (resolve m u cfg DEFAULT_LOCATION).canonical := by
  unfold get_location resolve
  cases messageTier m with
  | some loc => rfl
  | none =>
    cases configTier cfg u with
    | some loc => rfl
    | none => rfl

theorem foldl_longestStep_const (text : List Char) :
    ∀ (entries : List (List Char × String)) (b : List Char × String),
      (∀ e ∈ entries, e.1.length ≤ b.1.length) →
      entries.foldl (longestStep text) (some b) = some b := by
  intro entries
  induction entries with
  | nil => intro b _; rfl
  | cons e t ih =>
    intro b hb
    have hnot : ¬ b.1.length < e.1.length :=
      Nat.not_lt.mpr (hb e (List.mem_cons_self e t))
    have hstep : longestStep text (some b) e = some b := by
      unfold longestStep
      by_cases hsub : isSubstr e.1 text = true
      · rw [if_pos hsub]
        show (if b.1.length < e.1.length then some e else some b) = some b
        rw [if_neg hnot]
      · rw [if_neg hsub]
    rw [List.foldl_cons, hstep]
    exact ih b (fun x hx => hb x (List.mem_cons_of_mem e hx))

theorem keywordScan_eq_findLongestMatch (text : List Char) :
    ∀ (entries : List (List Char × String)),
      (∀ e ∈ entries, e.1.length = 2) →
      keywordScan entries text = (findLongestMatch entries text).map Prod.snd := by
  intro entries
  induction entries with
  | nil => intro _; rfl
  | cons e t ih =>
    intro h2
    by_cases he : isSubstr e.1 text = true
    · have hstep : longestStep text none e = some e := by
        unfold longestStep
        rw [if_pos he]
      have hle : ∀ x ∈ t, x.1.length ≤ e.1.length := by
        intro x hx
        have hx2 := h2 x (List.mem_cons_of_mem e hx)
        have he2 := h2 e (List.mem_cons_self e t)
        omega
      unfold keywordScan findLongestMatch
      rw [if_pos he, List.foldl_cons, hstep, foldl_longestStep_const text t e hle]
      rfl
    · have hstep : longestStep text none e = none := by
        unfold longestStep
        rw [if_neg he]
      unfold keywordScan findLongestMatch
      rw [if_neg he, List.foldl_cons, hstep]
      exact ih (fun x hx => h2 x (List.mem_cons_of_mem e hx))

theorem keywordScan_eq_none_iff (text : List Char) :
    ∀ (entries : List (List Char × String)),
      (keywordScan entries text = none ↔ ∀ e ∈ entries, isSubstr e.1 text = false) := by
  intro entries
  induction entries with
  | nil => simp [keywordScan]
  | cons e t ih =>
    cases he : isSubstr e.1 text with
    | true => simp [keywordScan, he]
    | false => simp [keywordScan, he, ih]

theorem extract_eq_bind (m : List Char) :
    _extract_from_message m = (firstPatternCapture m).bind cityMapGet := by
  unfold _extract_from_message firstPatternCapture
  cases searchCue '在' m with
  | some cap => rfl
  | none =>
    cases searchCue '去' m with
    | some cap => rfl
    | none =>
      cases searchCue '到' m with
      | some cap => rfl
      | none =>
        cases searchD m with
        | some cap => rfl
        | none => rfl

theorem messageTier_eq_none_of_extract (m : List Char)
    (hex : _extract_from_message m = none) : messageTier (some m) = none := by
  show (if m.isEmpty = true then none
    else
      match _extract_from_message m with
      | none => none
      | some loc => if loc.isEmpty = true then none else some loc) = none
  by_cases hm : m.isEmpty = true
  · rw [if_pos hm]
  · rw [if_neg hm, hex]

theorem resolve_eq_resolve_none (m : List Char) (h : messageTier (some m) = none)
    (u : Nat) (cfg : Nat → Option String) (d : String) :
    resolve (some m) u cfg d = resolve none u cfg d := by
  unfold resolve
  rw [h]
  rfl

theorem isWhitespace_cases {c : Char} (h : c.isWhitespace = true) :
    c = ' ' ∨ c = '\t' ∨ c = '\r' ∨ c = '\n' := by
  simp [Char.isWhitespace] at h
  tauto

theorem ws_not_word {c : Char} (h : c.isWhitespace = true) : isWordChar c = false := by
  rcases isWhitespace_cases h with h' | h' | h' | h' <;> subst h' <;> decide

theorem ws_beq_false {c : Char} (h : c.isWhitespace = true) {cue : Char}
    (hcue : 0x4E00 ≤ cue.toNat) : (c == cue) = false := by
  rw [beq_eq_false_iff_ne]
  intro hEq
  have h32 : c.toNat ≤ 32 := by
    rcases isWhitespace_cases h with h' | h' | h' | h' <;> subst h' <;> decide
  rw [hEq] at h32
  omega

theorem searchCue_eq_none_of_ne (cue : Char) :
    ∀ (m : List Char), (∀ c ∈ m, (c == cue) = false) → searchCue cue m = none := by
  intro m
  induction m with
  | nil => intro _; rfl
  | cons c rest ih =>
    intro h
    unfold searchCue
    rw [h c (List.mem_cons_self c rest)]
    simp only [Bool.false_eq_true, if_false]
    exact ih (fun x hx => h x (List.mem_cons_of_mem c hx))

theorem searchD_eq_none_of_not_word :
    ∀ (m : List Char), (∀ c ∈ m, isWordChar c = false) → searchD m = none := by
  intro m
  induction m with
  | nil => intro _; rfl
  | cons c rest ih =>
    intro h
    unfold searchD
    have hw : wordRun (c :: rest) = [] := by
      unfold wordRun
      rw [h c (List.mem_cons_self c rest)]
      simp
    rw [hw]
    exact ih (fun x hx => h x (List.mem_cons_of_mem c hx))

theorem extract_eq_none_of_ws (m : List Char) (h : ∀ c ∈ m, c.isWhitespace = true) :
    _extract_from_message m = none := by
  have h1 : searchCue '在' m = none :=
    searchCue_eq_none_of_ne _ m (fun c hc => ws_beq_false (h c hc) (by decide))
  have h2 : searchCue '去' m = none :=
    searchCue_eq_none_of_ne _ m (fun c hc => ws_beq_false (h c hc) (by decide))
  have h3 : searchCue '到' m = none :=
    searchCue_eq_none_of_ne _ m (fun c hc => ws_beq_false (h c hc) (by decide))
  have h4 : searchD m = none :=
    searchD_eq_none_of_not_word m (fun c hc => ws_not_word (h c hc))
  simp [_extract_from_message, h1, h2, h3, h4]

/-- C1: for every message (possibly absent), user id, config lookup and
system default, `resolve` applies the three tiers in order — message
extraction, then the user-config lookup, then the system default — each
later tier only when the prior one yields nothing, and the result's
`sourceTier` names the tier that supplied the location. -/
theorem claim_C1 (message : Option (List Char)) (userId : Nat)
    (configLookup : Nat → Option String) (systemDefault : String) :
    (∀ loc, messageTier message = some loc →
      resolve message userId configLookup systemDefault =
        ⟨loc, SourceTier.FromMessage⟩) ∧
    (messageTier message = none →
      ∀ loc, configTier configLookup userId = some loc →
        resolve message userId configLookup systemDefault =
          ⟨loc, SourceTier.FromUserConfig⟩) ∧
    (messageTier message = none → configTier configLookup userId = none →
      resolve message userId configLookup systemDefault =
        ⟨systemDefault, SourceTier.FromSystemDefault⟩) := by
  refine ⟨?_, ?_, ?_⟩
  · intro loc h
    simp [resolve, h]
  · intro h1 loc h2
    simp [resolve, h1, h2]
  · intro h1 h2
    simp [resolve, h1, h2]

/-- Witness for C1, tier 2: an absent message with a stored user config
resolves to the stored location with tier `FromUserConfig`. -/
theorem claim_C1_witness :
    resolve none 7 (fun _ => some "Hangzhou") "Shanghai" =
      ⟨"Hangzhou", SourceTier.FromUserConfig⟩ :=
  (claim_C1 none 7 (fun _ => some "Hangzhou") "Shanghai").2.1 rfl "Hangzhou" (by decide)

/-- C2: the registration-order scan of `extract_location_from_message`
coincides, for every text, with the spec's `findLongestMatch` (longest
occurring display name, ties broken by earliest registration), returns
`none` exactly when no registered name occurs, and no registered display
name overlaps another (so the 上海/上海浦东-style situation does not arise
among the registered entries). -/
theorem claim_C2 (text : List Char) :
    extract_location_from_message text =
      (findLongestMatch LOCATION_KEYWORDS text).map Prod.snd ∧
    (extract_location_from_message text = none ↔
      ∀ e ∈ LOCATION_KEYWORDS, isSubstr e.1 text = false) ∧
    (∀ e1 ∈ LOCATION_KEYWORDS, ∀ e2 ∈ LOCATION_KEYWORDS,
      isSubstr e1.1 e2.1 = true → e1.1 = e2.1) := by
  refine ⟨?_, ?_, by decide⟩
  · exact keywordScan_eq_findLongestMatch text LOCATION_KEYWORDS (by decide)
  · exact keywordScan_eq_none_iff text LOCATION_KEYWORDS

/-- Witness for C2 at a concrete text containing two registered names. -/
theorem claim_C2_witness :
    extract_location_from_message "去上海，北京".toList =
      (findLongestMatch LOCATION_KEYWORDS "去上海，北京".toList).map Prod.snd ∧
    ("上海".toList : List Char) = "上海".toList := by
  refine ⟨(claim_C2 "去上海，北京".toList).1, ?_⟩
  exact (claim_C2 "去上海，北京".toList).2.2 ("上海".toList, "Shanghai") (by decide)
    ("上海".toList, "Shanghai") (by decide) (by decide)

/-- C3 as stated is false: the counterexample message 去上海，北京 is
matched by the direct dictionary scan to Beijing (北京 is registered
first) and by pattern-anchored extraction (去X) to Shanghai, yet
`resolve` returns Shanghai — the pattern result, not the direct-scan
result, is what `get_location` uses. -/
theorem claim_C3_counterexample :
    _extract_from_message "去上海，北京".toList = some "Shanghai" ∧
    extract_location_from_message "去上海，北京".toList = some "Beijing" ∧
    resolve (some "去上海，北京".toList) 0 (fun _ => none) "Chengdu" =
      ⟨"Shanghai", SourceTier.FromMessage⟩ ∧
    ("Shanghai" : String) ≠ "Beijing" :=
  ⟨by decide, by decide, by decide, by decide⟩

/-- C3 amended: during message extraction only pattern-anchored
extraction (`_extract_from_message`) is attempted; the direct dictionary
scan `extract_location_from_message` is never invoked by `get_location`,
so when both techniques match — even to different canonical locations —
`resolve` returns the pattern-anchored result with tier `FromMessage`. -/
theorem claim_C3 (m : List Char) (loc loc2 : String) (userId : Nat)
    (configLookup : Nat → Option String) (systemDefault : String)
    (hb : _extract_from_message m = some loc) (hloc : loc.isEmpty = false)
    (ha : extract_location_from_message m = some loc2) :
    resolve (some m) userId configLookup systemDefault =
      ⟨loc, SourceTier.FromMessage⟩ := by
  have hm : m.isEmpty = false := by
    cases m with
    | nil =>
      have hnil : _extract_from_message ([] : List Char) = none := rfl
      rw [hnil] at hb
      exact Option.noConfusion hb
    | cons c rest => rfl
  have hmt : messageTier (some m) = some loc := by
    show (if m.isEmpty = true then none
      else
        match _extract_from_message m with
        | none => none
        | some l => if l.isEmpty = true then none else some l) = some loc
    rw [if_neg (by simp [hm]), hb]
    show (if loc.isEmpty = true then none else some loc) = some loc
    rw [if_neg (by simp [hloc])]
  simp [resolve, hmt]

/-- Witness for C3 amended: both techniques match 去上海，北京 but to
different canonical ids, and the pattern-anchored one is returned. -/
theorem claim_C3_witness :
    resolve (some "去上海，北京".toList) 1 (fun _ => some "Tokyo") "Chengdu" =
      ⟨"Shanghai", SourceTier.FromMessage⟩ :=
  claim_C3 "去上海，北京".toList "Shanghai" "Beijing" 1 (fun _ => some "Tokyo")
    "Chengdu" (by decide) (by decide) (by decide)

/-- C4 (code bug): on the repository's own interaction example
来北京出差了，天气好冷 the claimed result is Beijing with tier
`FromMessage`, but none of the four patterns (在X, 去X, 到X, X的天气)
matches — there is no 来X pattern — and the bare mention 北京 (which does
occur as a substring) is never scanned by `get_location`, so extraction
fails and `resolve` falls through to the system default. -/
theorem claim_C4 :
    _extract_from_message "来北京出差了，天气好冷".toList = none ∧
    isSubstr "北京".toList "来北京出差了，天气好冷".toList = true ∧
    resolve (some "来北京出差了，天气好冷".toList) 0 (fun _ => none) "Shanghai" =
      ⟨"Shanghai", SourceTier.FromSystemDefault⟩ :=
  ⟨by decide, by decide, by decide⟩

/-- C5 (code bug): on the repository's own example 今天在杭州西湖边散步
the direct scan would find the sole bare mention 杭州, but `get_location`
only runs the pattern extraction, whose greedy 在-capture 杭州西湖边散步
is not a registered key; extraction therefore fails and the stored user
config wins, contradicting the claimed (Hangzhou, FromMessage). -/
theorem claim_C5 :
    extract_location_from_message "今天在杭州西湖边散步".toList = some "Hangzhou" ∧
    isSubstr "杭州".toList "今天在杭州西湖边散步".toList = true ∧
    resolve (some "今天在杭州西湖边散步".toList) 0 (fun _ => some "Beijing") "Shanghai" =
      ⟨"Beijing", SourceTier.FromUserConfig⟩ :=
  ⟨by decide, by decide, by decide⟩

/-- C6: when the first matching pattern's capture is not a key of
`CITY_MAP`, the pattern match is discarded: extraction yields `none` and
resolution proceeds exactly as if the message were absent — the
unrecognized captured name is never returned as the resolved location. -/
theorem claim_C6 (m cap : List Char) (hcap : firstPatternCapture m = some cap)
    (hmiss : cityMapGet cap = none) :
    _extract_from_message m = none ∧
    ∀ (userId : Nat) (configLookup : Nat → Option String) (systemDefault : String),
      resolve (some m) userId configLookup systemDefault =
        resolve none userId configLookup systemDefault := by
  have hex : _extract_from_message m = none := by
    rw [extract_eq_bind, hcap]
    exact hmiss
  exact ⟨hex, fun u cfg d =>
    resolve_eq_resolve_none m (messageTier_eq_none_of_extract m hex) u cfg d⟩

/-- Witness for C6: 在北京玩 captures 北京玩, which is not registered. -/
theorem claim_C6_witness :
    _extract_from_message "在北京玩".toList = none ∧
    resolve (some "在北京玩".toList) 0 (fun _ => some "Hangzhou") "Shanghai" =
      resolve none 0 (fun _ => some "Hangzhou") "Shanghai" := by
  have h := claim_C6 "在北京玩".toList "北京玩".toList (by decide) (by decide)
  exact ⟨h.1, h.2 0 (fun _ => some "Hangzhou") "Shanghai"⟩

/-- C7: every not-found condition is represented as absence (the
embedding is a total function), and when both the message tier and the
config tier yield nothing, `resolve` returns the system default with tier
`FromSystemDefault`; the source's own default `DEFAULT_LOCATION` is
non-empty. -/
theorem claim_C7 (message : Option (List Char)) (userId : Nat)
    (configLookup : Nat → Option String) (systemDefault : String) :
    (messageTier message = none → configTier configLookup userId = none →
      resolve message userId configLookup systemDefault =
        ⟨systemDefault, SourceTier.FromSystemDefault⟩ ∧
      get_location configLookup userId message = DEFAULT_LOCATION) ∧
    DEFAULT_LOCATION.isEmpty = false := by
  refine ⟨?_, by decide⟩
  intro h1 h2
  constructor
  · simp [resolve, h1, h2]
  · simp [get_location, h1, h2]

/-- Witness for C7: no message and no stored config yields the default. -/
theorem claim_C7_witness :
    resolve none 0 (fun _ => none) "Shanghai" =
      ⟨"Shanghai", SourceTier.FromSystemDefault⟩ :=
  ((claim_C7 none 0 (fun _ => none) "Shanghai").1 rfl rfl).1

/-- C8: a whitespace-only (in particular empty) message yields exactly
the same `ResolutionResult` as an absent message, for every user id,
config lookup and system default. -/
theorem claim_C8 (m : List Char) (h : ∀ c ∈ m, c.isWhitespace = true)
    (userId : Nat) (configLookup : Nat → Option String) (systemDefault : String) :
    resolve (some m) userId configLookup systemDefault =
      resolve none userId configLookup systemDefault :=
  resolve_eq_resolve_none m
    (messageTier_eq_none_of_extract m (extract_eq_none_of_ws m h)) userId
    configLookup systemDefault

/-- Witness for C8: the empty message with no stored config resolves to
the system default with tier `FromSystemDefault`. -/
theorem claim_C8_witness :
    resolve (some "".toList) 0 (fun _ => none) "Shanghai" =
      ⟨"Shanghai", SourceTier.FromSystemDefault⟩ :=
  (claim_C8 "".toList (by decide) 0 (fun _ => none) "Shanghai").trans (by decide)

/-- C9: the four patterns are tried in the fixed order 在X, 去X, 到X,
X的天气 and the scan stops at the first pattern matching anywhere: the
result is `CITY_MAP.get` of that pattern's capture even when it is
`none`, as the concrete message 在北京玩，去上海 shows — its 在-capture
北京玩 is unregistered, so extraction returns `none` without trying the
去 pattern, whose capture 上海 is registered, and resolution falls
through to the config tier. -/
theorem claim_C9 :
    (∀ (m cap : List Char), searchCue '在' m = some cap →
      _extract_from_message m = cityMapGet cap) ∧
    (∀ (m cap : List Char), firstPatternCapture m = some cap →
      _extract_from_message m = cityMapGet cap) ∧
    (searchCue '在' "在北京玩，去上海".toList = some "北京玩".toList ∧
     cityMapGet "北京玩".toList = none ∧
     searchCue '去' "在北京玩，去上海".toList = some "上海".toList ∧
     cityMapGet "上海".toList = some "Shanghai" ∧
     _extract_from_message "在北京玩，去上海".toList = none ∧
     resolve (some "在北京玩，去上海".toList) 0 (fun _ => some "Chengdu") "Shanghai" =
       ⟨"Chengdu", SourceTier.FromUserConfig⟩) := by
  refine ⟨?_, ?_, by decide⟩
  · intro m cap h
    simp [_extract_from_message, h]
  · intro m cap h
    rw [extract_eq_bind, h]
    rfl

/-- Witness for C9: the first conjunct applied to 在北京玩，去上海. -/
theorem claim_C9_witness :
    _extract_from_message "在北京玩，去上海".toList = cityMapGet "北京玩".toList :=
  claim_C9.1 "在北京玩，去上海".toList "北京玩".toList (by decide)

end Raven
